import Mathlib

/-!
Shallow embedding of the adlauncher-core launcher (src/components/launcher.js)
and downloader (the Downloader class). Paths are modelled as strings joined
with "/" (path.join / path.resolve collaborators), filesystem side effects as
explicit operation traces, and JavaScript string methods as executable
functions on character lists.
-/

/-- Character-list test: does the second list start with the first?
Models the inner loop of JavaScript String.prototype.includes. -/
def charsHavePref : List Char → List Char → Bool
  | [], _ => true
  | _ :: _, [] => false
  | a :: as, b :: bs => a == b && charsHavePref as bs

/-- Occurrence of the pattern list anywhere in the subject list. -/
def charsInclude (t : List Char) : List Char → Bool
  | [] => t.isEmpty
  | c :: cs => charsHavePref t (c :: cs) || charsInclude t cs

/-- JavaScript s.includes(t): substring containment on strings. -/
def strIncludes (s t : String) : Bool :=
  charsInclude t.data s.data

/-- Auxiliary splitter accumulating the current chunk in reverse. -/
def splitCharAux (sep : Char) : List Char → List Char → List (List Char)
  | [], acc => [acc.reverse]
  | c :: cs, acc =>
    if c == sep then acc.reverse :: splitCharAux sep cs []
    else splitCharAux sep cs (c :: acc)

/-- JavaScript s.split(sep) for a one-character separator. -/
def splitChar (sep : Char) (s : String) : List String :=
  (splitCharAux sep s.data []).map (fun l => String.mk l)

/-- Model of path.join / path.resolve: components joined with "/". -/
def pjoin (l : List String) : String :=
  String.intercalate "/" l

/-- Model of path.basename: the final "/"-separated component. -/
def basename (p : String) : String :=
  (splitChar '/' p).getLastD ""

/-- Model of path.extname: the final "."-suffix of the name, empty for a
name with no dot or a lone leading dot. -/
def extname (s : String) : String :=
  let parts := splitChar '.' s
  match parts with
  | [] => ""
  | [_] => ""
  | ["", _] => ""
  | _ => "." ++ parts.getLastD ""

/-- JavaScript s.substring(0, n). -/
def strTake (n : Nat) (s : String) : String :=
  String.mk (s.data.take n)

/-- JavaScript Array.prototype.slice(-2): the last two elements (the whole
list when it is shorter). -/
def lastTwo {α : Type} (l : List α) : List α :=
  l.drop (l.length - 2)

/-- Directory name constants from the Downloader constructor. -/
def cacheDir : String := "cache"

/-- Downloader constructor field: this.versions. -/
def versionsDir : String := "versions"

/-- Downloader constructor field: this.assets. -/
def assetsDir : String := "assets"

/-- Downloader constructor field: this.libraries. -/
def librariesDir : String := "libraries"

/-- Downloader constructor field: this.natives. -/
def nativesDir : String := "natives"

/-- Downloader constructor field: this.url.meta. -/
def metaUrl : String := "https://launchermeta.mojang.com/mc/game/version_manifest.json"

/-- Downloader constructor field: this.url.resource. -/
def resourceUrl : String := "https://resources.download.minecraft.net"

/-- A directory tree as seen by the recursive jar search: a file entry or a
named directory with its children, in readdirSync order. -/
inductive FsTree where
  | file : String → FsTree
  | dir : String → List FsTree → FsTree

/-- The legacy version set hard-coded in encontrarArchivosJAR. -/
def legacyVersions : List String := ["1.14", "1.14.1", "1.14.2", "1.14.3"]

/-- The per-file admission test of encontrarArchivosJAR: for a legacy
version a required .jar file is admitted unconditionally, otherwise the
file must additionally not contain the substring "3.2.1". -/
def jarCondition (ver archivo : String) (files : List String) : Bool :=
  if legacyVersions.contains ver then
    extname archivo == ".jar" && files.contains archivo
  else
    extname archivo == ".jar" && files.contains archivo && !(strIncludes archivo "3.2.1")

/-- Launcher.encontrarArchivosJAR: recursive scan of a directory tree,
concatenating the full path of every admitted jar followed by ";". -/
def encontrarArchivosJAR (files : List String) (ver : String) :
    String → List FsTree → String
  | _, [] => ""
  | directorio, FsTree.dir nombre hijos :: rest =>
    encontrarArchivosJAR files ver (pjoin [directorio, nombre]) hijos ++
      encontrarArchivosJAR files ver directorio rest
  | directorio, FsTree.file archivo :: rest =>
    (if jarCondition ver archivo files then pjoin [directorio, archivo] ++ ";" else "") ++
      encontrarArchivosJAR files ver directorio rest

/-- List form of the same scan: the admitted jar paths in traversal order. -/
def encontrarJARLista (files : List String) (ver : String) :
    String → List FsTree → List String
  | _, [] => []
  | directorio, FsTree.dir nombre hijos :: rest =>
    encontrarJARLista files ver (pjoin [directorio, nombre]) hijos ++
      encontrarJARLista files ver directorio rest
  | directorio, FsTree.file archivo :: rest =>
    (if jarCondition ver archivo files then [pjoin [directorio, archivo]] else []) ++
      encontrarJARLista files ver directorio rest

/-- Concatenation of a list of strings, in order. -/
def concatAll : List String → String
  | [] => ""
  | s :: rest => s ++ concatAll rest

theorem concatAll_append (a b : List String) :
    concatAll (a ++ b) = concatAll a ++ concatAll b := by
  induction a with
  | nil => simp [concatAll]
  | cons s rest ih => simp [concatAll, ih, String.append_assoc]

theorem encontrar_eq_join (files : List String) (ver : String) :
    ∀ (directorio : String) (ts : List FsTree),
    encontrarArchivosJAR files ver directorio ts =
      concatAll ((encontrarJARLista files ver directorio ts).map (fun s => s ++ ";")) := by
  intro directorio ts
  induction directorio, ts using encontrarArchivosJAR.induct files ver with
  | case1 d => simp [encontrarArchivosJAR, encontrarJARLista, concatAll]
  | case2 d nombre hijos rest ih1 ih2 =>
    simp [encontrarArchivosJAR, encontrarJARLista, ih1, ih2, concatAll_append]
  | case3 d archivo rest ih =>
    by_cases h : jarCondition ver archivo files = true
    · simp [encontrarArchivosJAR, encontrarJARLista, h, ih, concatAll]
    · simp [encontrarArchivosJAR, encontrarJARLista, h, ih]

theorem encontrarJARLista_mem (files : List String) (ver : String) :
    ∀ (directorio : String) (ts : List FsTree) (p : String),
    p ∈ encontrarJARLista files ver directorio ts →
    ∃ d a, p = pjoin [d, a] ∧ jarCondition ver a files = true := by
  intro directorio ts
  induction directorio, ts using encontrarJARLista.induct files ver with
  | case1 d => intro p hp; simp [encontrarJARLista] at hp
  | case2 d nombre hijos rest ih1 ih2 =>
    intro p hp
    simp only [encontrarJARLista, List.mem_append] at hp
    rcases hp with hp | hp
    · exact ih1 p hp
    · exact ih2 p hp
  | case3 d archivo rest ih =>
    intro p hp
    simp only [encontrarJARLista] at hp
    by_cases h : jarCondition ver archivo files = true
    · rw [if_pos h] at hp
      rcases List.mem_append.mp hp with hp | hp
      · exact ⟨d, archivo, List.mem_singleton.mp hp, h⟩
      · exact ih p hp
    · rw [if_neg h, List.nil_append] at hp
      exact ih p hp

/-- A version-manifest entry: { id, type, url }. -/
structure ManifestEntry where
  id : String
  type : String
  url : String
deriving DecidableEq

/-- The top-level version manifest: { versions: [...] }. -/
structure Manifest where
  versions : List ManifestEntry
deriving DecidableEq

/-- A JavaScript failure: a TypeError raised by a property access on
undefined, or an explicitly thrown value. -/
inductive JsError where
  | typeError : String → JsError
  | jsThrow : String → JsError
deriving DecidableEq

/-- The version lookup inside Downloader.downloadVersion:
ver.versions.find(x => x.type === "release" && x.id === version).url
followed by the guard: if (!verJson) throw "La version no existe.".
When find returns undefined the .url access raises a TypeError before
the guard runs; the guard itself only fires on a falsy (empty) url. -/
def findReleaseUrl (manifest : Manifest) (version : String) : Except JsError String :=
  match manifest.versions.find? (fun x => x.type == "release" && x.id == version) with
  | none => Except.error (JsError.typeError "Cannot read properties of undefined (reading url)")
  | some entry =>
    if entry.url == "" then Except.error (JsError.jsThrow "La version no existe.")
    else Except.ok entry.url

/-- downloads.client of a version metadata document. -/
structure ClientInfo where
  url : String
deriving DecidableEq

/-- downloads of a version metadata document. -/
structure DownloadsInfo where
  client : ClientInfo
deriving DecidableEq

/-- downloads.artifact of a library entry. -/
structure ArtifactInfo where
  path : String
  url : String
deriving DecidableEq

/-- A native-bundle descriptor under downloads.classifiers. -/
structure NativeInfo where
  path : String
  url : String
deriving DecidableEq

/-- downloads.classifiers of a library entry; the code only consults the
keys "natives-windows" and "natives-windows-64". -/
structure ClassifiersInfo where
  nativesWindows : Option NativeInfo
  nativesWindows64 : Option NativeInfo
deriving DecidableEq

/-- downloads of a library entry. -/
structure LibDownloadsInfo where
  artifact : Option ArtifactInfo
  classifiers : Option ClassifiersInfo
deriving DecidableEq

/-- A library entry of a version metadata document. -/
structure LibraryInfo where
  name : String
  downloads : LibDownloadsInfo
deriving DecidableEq

/-- assetIndex of a version metadata document. -/
structure AssetIndexInfo where
  url : String
deriving DecidableEq

/-- arguments of a version metadata document (the structured form). -/
structure GameArguments where
  game : List String
deriving DecidableEq

/-- A parsed per-version metadata document (<version>.json). -/
structure VersionFile where
  mainClass : String
  downloads : DownloadsInfo
  assetIndex : AssetIndexInfo
  libraries : List LibraryInfo
  minecraftArguments : Option String
  arguments : Option GameArguments
deriving DecidableEq

/-- One object entry of a parsed asset index: { hash }. -/
structure AssetObjectInfo where
  hash : String
deriving DecidableEq

/-- A parsed asset index: objects as an association list from logical key
to object descriptor. -/
structure AssetIndexFile where
  objects : List (String × AssetObjectInfo)
deriving DecidableEq

/-- A filesystem / network operation performed by the code, recorded in
order: file read, existsSync probe, mkdirSync, file write, unlinkSync,
a network download of url into dir under name, or a zip extraction. -/
inductive FsOp where
  | readF : String → FsOp
  | existsCheck : String → FsOp
  | mkdir : String → FsOp
  | writeF : String → FsOp
  | unlink : String → FsOp
  | download : String → String → String → FsOp
  | extract : String → String → FsOp
deriving DecidableEq

/-- The directories that exist on disk when a Downloader run starts; the
code only ever calls existsSync on directories (every per-file download is
unconditional), so file existence needs no representation. -/
structure DownFs where
  dirs : List String
deriving DecidableEq

/-- Downloader.downloadVersion as an operation trace: create the cache/json
directory if absent, always download the manifest, read it back, resolve the
release url (TypeError on an absent id), create the version directory if
absent, and always download the version metadata document. -/
def downloadVersionTrace (root version : String) (st : DownFs) (manifest : Manifest) :
    Except JsError (List FsOp) :=
  let ops1 :=
    (if st.dirs.contains (pjoin [root, cacheDir, "json"]) then []
     else [FsOp.mkdir (pjoin [root, cacheDir, "json"])]) ++
    [FsOp.download metaUrl (pjoin [root, cacheDir, "json"]) "version_manifest.json"]
  if st.dirs.contains (pjoin [root, cacheDir]) then
    let ops2 := ops1 ++ [FsOp.readF (pjoin [root, cacheDir, "json", "version_manifest.json"])]
    match findReleaseUrl manifest version with
    | Except.error e => Except.error e
    | Except.ok verJson =>
      Except.ok (ops2 ++
        (if st.dirs.contains (pjoin [root, versionsDir, version]) then []
         else [FsOp.mkdir (pjoin [root, versionsDir, version])]) ++
        [FsOp.download verJson (pjoin [root, versionsDir, version]) (version ++ ".json")])
  else Except.ok ops1

/-- Downloader.downloadClient as an operation trace: read the version
metadata, create the version directory if absent, and always download the
client jar (no existence check on the jar itself). -/
def downloadClientTrace (root version : String) (st : DownFs) (file : VersionFile) :
    List FsOp :=
  [FsOp.readF (pjoin [root, versionsDir, version, version ++ ".json"])] ++
  (if st.dirs.contains (pjoin [root, versionsDir, version]) then []
   else [FsOp.mkdir (pjoin [root, versionsDir, version])]) ++
  [FsOp.download file.downloads.client.url (pjoin [root, versionsDir, version])
    (version ++ ".jar")]

/-- The per-object step of Downloader.downloadAssets: shard directory from
the first two characters of the hash, created if absent, then an
unconditional download of the object, stored under its full hash. -/
def assetObjectOps (root : String) (st : DownFs) (entry : String × AssetObjectInfo) :
    List FsOp :=
  let fileHash := entry.2.hash
  let fileSubHash := strTake 2 fileHash
  (if st.dirs.contains (pjoin [root, assetsDir, "objects", fileSubHash]) then []
   else [FsOp.mkdir (pjoin [root, assetsDir, "objects", fileSubHash])]) ++
  [FsOp.download (resourceUrl ++ "/" ++ fileSubHash ++ "/" ++ fileHash)
    (pjoin [root, assetsDir, "objects", fileSubHash]) fileHash]

/-- Downloader.downloadAssets as an operation trace: create the indexes
directory if absent, download the asset index twice (indexes copy and cache
mirror), read it back, create the objects directory if absent, then run the
per-object step over every entry in order. -/
def downloadAssetsTrace (root version : String) (st : DownFs) (file : VersionFile)
    (assetFile : AssetIndexFile) : List FsOp :=
  (if st.dirs.contains (pjoin [root, assetsDir, "indexes"]) then []
   else [FsOp.mkdir (pjoin [root, assetsDir, "indexes"])]) ++
  [FsOp.download file.assetIndex.url (pjoin [root, assetsDir, "indexes"]) (version ++ ".json"),
   FsOp.download file.assetIndex.url (pjoin [root, cacheDir, "json"]) (version ++ ".json"),
   FsOp.readF (pjoin [root, assetsDir, "indexes", version ++ ".json"])] ++
  (if st.dirs.contains (pjoin [root, assetsDir, "objects"]) then []
   else [FsOp.mkdir (pjoin [root, assetsDir, "objects"])]) ++
  assetFile.objects.flatMap (assetObjectOps root st)

/-- The per-entry step of Downloader.downloadLibraries: for an entry with an
artifact, derive the library directory from the artifact path, create it if
absent, and always download the jar. -/
def libraryArtifactOps (root : String) (st : DownFs) (element : LibraryInfo) : List FsOp :=
  match element.downloads.artifact with
  | none => []
  | some artifact =>
    let jarFile := artifact.path
    let libRoot := String.intercalate "/" (splitChar '/' jarFile).dropLast
    let libName := basename jarFile
    (if st.dirs.contains (pjoin [root, librariesDir, libRoot]) then []
     else [FsOp.mkdir (pjoin [root, librariesDir, libRoot])]) ++
    [FsOp.download artifact.url (pjoin [root, librariesDir, libRoot]) libName]

/-- Downloader.downloadLibraries as an operation trace. -/
def downloadLibrariesTrace (root : String) (st : DownFs) (file : VersionFile) : List FsOp :=
  (if st.dirs.contains (pjoin [root, librariesDir]) then []
   else [FsOp.mkdir (pjoin [root, librariesDir])]) ++
  file.libraries.flatMap (libraryArtifactOps root st)

/-- The classifier selection of Downloader.downloadNatives:
typeof el === "object" && (el["natives-windows"] ? el["natives-windows"]
: el["natives-windows-64"]): the platform-only key is tried first and the
platform+arch key is only the fallback. -/
def selectNatives (el : Option ClassifiersInfo) : Option NativeInfo :=
  match el with
  | none => none
  | some c =>
    match c.nativesWindows with
    | some n => some n
    | none => c.nativesWindows64

/-- The per-entry step of Downloader.downloadNatives: download the selected
bundle into the natives root (scratch), then either delete it without
extraction (the version 1.8 nightly quirk) or extract it into the
version-named natives subdirectory and delete the scratch archive. -/
def nativeEntryOps (root version : String) (element : LibraryInfo) : List FsOp :=
  match selectNatives element.downloads.classifiers with
  | none => []
  | some natives =>
    let b := basename natives.path
    [FsOp.download natives.url (pjoin [root, nativesDir]) b] ++
    (if version == "1.8" && strIncludes natives.url "nightly" then
      [FsOp.unlink (pjoin [root, nativesDir, b])]
     else
      [FsOp.extract (pjoin [root, nativesDir, b]) (pjoin [root, nativesDir, version]),
       FsOp.unlink (pjoin [root, nativesDir, b])])

/-- Downloader.downloadNatives as an operation trace. -/
def downloadNativesTrace (root version : String) (st : DownFs) (file : VersionFile) :
    List FsOp :=
  (if st.dirs.contains (pjoin [root, nativesDir]) then []
   else [FsOp.mkdir (pjoin [root, nativesDir])]) ++
  file.libraries.flatMap (nativeEntryOps root version)

/-- Is the operation a network download? -/
def isDownload : FsOp → Bool
  | FsOp.download _ _ _ => true
  | _ => false

/-- The downloads of a trace, in order. -/
def downloadsOf (ops : List FsOp) : List FsOp :=
  ops.filter isDownload

/-- Launcher.launch line deriving custom: the full version string is the
overlay id exactly when it differs from the parsed base version. -/
def customOf (fullVersion version : String) : Option String :=
  if fullVersion ≠ version then some fullVersion else none

/-- Launcher.launch classpath assembly (lines 112-113): the recursive jar
scan over the libraries root, then one appended game jar chosen by
custom === null || custom.includes("fabric") ? base jar : custom jar. -/
def buildClasspath (rootPath : String) (tree : List FsTree) (reqLibs : List String)
    (version : String) (custom : Option String) : String :=
  let libs := encontrarArchivosJAR reqLibs version (pjoin [rootPath, librariesDir]) tree
  match custom with
  | none => libs ++ pjoin [rootPath, versionsDir, version, version ++ ".jar"]
  | some c =>
    if strIncludes c "fabric" then
      libs ++ pjoin [rootPath, versionsDir, version, version ++ ".jar"]
    else
      libs ++ pjoin [rootPath, versionsDir, c, c ++ ".jar"]

/-- The base required-library basenames: for every library entry with an
artifact descriptor, the basename of its artifact path, in order. -/
def baseReqLibs (libraries : List LibraryInfo) : List String :=
  libraries.filterMap (fun element =>
    element.downloads.artifact.map (fun artifact => basename artifact.path))

/-- The overlay library basename reconstruction:
element.name.split(":").slice(-2).join("-").concat(".jar"). -/
def customLibName (element : LibraryInfo) : String :=
  String.intercalate "-" (lastTwo (splitChar ':' element.name)) ++ ".jar"

/-- The merged required-library basename set: the base entries followed by
the reconstructed overlay entries. -/
def mergedReqLibs (file customFile : VersionFile) : List String :=
  baseReqLibs file.libraries ++ customFile.libraries.map customLibName

/-- The effective main class: the overlay metadata supersedes the base
metadata whenever an overlay is present. -/
def mergedMainClass (file : VersionFile) (customFile : Option VersionFile) : String :=
  match customFile with
  | none => file.mainClass
  | some cf => cf.mainClass

/-- The fields mapping of Launcher.launch: known placeholder tokens and
their resolved values, in source order (the numeric window resolution
values rendered as the strings the spawned argv receives). -/
def fieldsMap (uuid username version rootPath : String) : List (String × String) :=
  [ ("$\x7bauth_access_token\x7d", uuid),
    ("$\x7bauth_session\x7d", uuid),
    ("$\x7bauth_player_name\x7d", username),
    ("$\x7bauth_uuid\x7d", uuid),
    ("$\x7bauth_xuid\x7d", uuid),
    ("$\x7buser_properties\x7d", "\x7b\x7d"),
    ("$\x7buser_type\x7d", "mojang"),
    ("$\x7bversion_name\x7d", version),
    ("$\x7bassets_index_name\x7d", version),
    ("$\x7bgame_directory\x7d", rootPath),
    ("$\x7bassets_root\x7d", pjoin [rootPath, assetsDir]),
    ("$\x7bgame_assets\x7d", pjoin [rootPath, assetsDir]),
    ("$\x7bversion_type\x7d", "release"),
    ("$\x7bclientid\x7d", uuid),
    ("$\x7bresolution_width\x7d", "856"),
    ("$\x7bresolution_height\x7d", "482") ]

/-- The substitution loop of Launcher.launch: a token that is an exact key
of the fields mapping is replaced by its value, every other token is left
unchanged. -/
def substPlaceholders (fields : List (String × String)) (args : List String) : List String :=
  args.map (fun a =>
    match fields.lookup a with
    | some v => v
    | none => a)

/-- The argument vector assembled by Launcher.launch before substitution:
JVM native-library path, heap bounds, the fixed heap-dump flag, the
classpath flag and value, the main class, then the flattened game-argument
tokens (the truthiness fallback on the natives path reproduced as written). -/
def buildArgs (rootPath version minM maxM libs mainClass : String)
    (gameArgs : List String) : List String :=
  [ "-Djava.library.path=" ++
      (if pjoin [rootPath, nativesDir, version] ≠ "" then pjoin [rootPath, nativesDir, version]
       else rootPath),
    "-Xmx" ++ maxM,
    "-Xms" ++ minM,
    "-XX:HeapDumpPath=MojangTricksIntelDriversForPerformance_javaw.exe_minecraft.exe.heapdump",
    "-cp",
    libs,
    mainClass ] ++ gameArgs

/-- An entry of usercache.json. -/
structure UserEntry where
  name : String
  uuid : String
deriving DecidableEq

/-- Launcher.auth: the whole body runs in a try/catch whose handler returns
a fresh uuidv4 (modelled as the external parameter freshUuid). cache is the
parse of usercache.json: none models a missing file or malformed JSON; a
missing matching entry makes the .uuid access on undefined throw, which the
same handler catches. -/
def auth (cache : Option (List UserEntry)) (us freshUuid : String) : String :=
  match cache with
  | none => freshUuid
  | some fil =>
    match fil.find? (fun x => x.name == us) with
    | none => freshUuid
    | some entry => entry.uuid

/-- The files relevant to the conditional mutations of Launcher.launch:
does launcher_profiles.json exist, does options.txt exist. -/
structure LaunchDisk where
  profilesExists : Bool
  optionsExists : Bool
deriving DecidableEq

/-- Launcher.createProfile as an operation trace: probe for
launcher_profiles.json and write an empty profile map only when absent. -/
def createProfileOps (root : String) (st : LaunchDisk) : List FsOp :=
  [FsOp.existsCheck (pjoin [root, "launcher_profiles.json"])] ++
  (if st.profilesExists then [] else [FsOp.writeF (pjoin [root, "launcher_profiles.json"])])

/-- The filesystem reads of encontrarArchivosJAR: readdirSync and statSync
over every visited entry, recorded as reads. -/
def scanOps : String → List FsTree → List FsOp
  | _, [] => []
  | directorio, FsTree.file archivo :: rest =>
    FsOp.readF (pjoin [directorio, archivo]) :: scanOps directorio rest
  | directorio, FsTree.dir nombre hijos :: rest =>
    FsOp.readF (pjoin [directorio, nombre]) ::
      (scanOps (pjoin [directorio, nombre]) hijos ++ scanOps directorio rest)

/-- Launcher.launch up to the spawn call, as an operation trace in source
order: read the base metadata, createProfile, the usercache read of auth,
then with an overlay selected the overlay metadata read and the conditional
options.txt deletion, then the recursive jar scan of the libraries root. -/
def launchTrace (rootPath version : String) (custom : Option String) (st : LaunchDisk)
    (tree : List FsTree) : List FsOp :=
  [FsOp.readF (pjoin [rootPath, versionsDir, version, version ++ ".json"])] ++
  createProfileOps rootPath st ++
  [FsOp.readF (pjoin [rootPath, "usercache.json"])] ++
  (match custom with
   | none => []
   | some c =>
     [FsOp.readF (pjoin [rootPath, versionsDir, c, c ++ ".json"]),
      FsOp.existsCheck (pjoin [rootPath, "options.txt"])] ++
     (if st.optionsExists then [FsOp.unlink (pjoin [rootPath, "options.txt"])] else [])) ++
  FsOp.readF (pjoin [rootPath, librariesDir]) ::
    scanOps (pjoin [rootPath, librariesDir]) tree

/-- A concrete base-version library entry used in concrete instances. -/
def guavaLib : LibraryInfo :=
  { name := "com.google.guava:guava:17.0",
    downloads :=
      { artifact := some { path := "com/google/guava/guava-17.0.jar",
                           url := "https://libraries.example/guava-17.0.jar" },
        classifiers := none } }

/-- A concrete overlay library entry used in concrete instances. -/
def fabricLoaderLib : LibraryInfo :=
  { name := "net.fabricmc:fabric-loader:0.15.0",
    downloads := { artifact := none, classifiers := none } }

/-- A concrete base version metadata document used in concrete instances. -/
def sampleBaseFile : VersionFile :=
  { mainClass := "net.minecraft.client.main.Main",
    downloads := { client := { url := "https://launcher.example/client.jar" } },
    assetIndex := { url := "https://launcher.example/assets.json" },
    libraries := [guavaLib],
    minecraftArguments := none,
    arguments := none }

/-- A concrete overlay version metadata document used in concrete instances. -/
def sampleOverlayFile : VersionFile :=
  { mainClass := "net.fabricmc.loader.impl.launch.knot.KnotClient",
    downloads := { client := { url := "https://launcher.example/client.jar" } },
    assetIndex := { url := "https://launcher.example/assets.json" },
    libraries := [fabricLoaderLib],
    minecraftArguments := none,
    arguments := some { game := [] } }

/-- C1 (counterexample): for the fabric overlay "1.19-fabric-0.1" over base
"1.19" the claim says the overlay jar versions/1.19-fabric-0.1/
1.19-fabric-0.1.jar is appended; the code appends the base jar
versions/1.19/1.19.jar instead, so the classpath differs from the claimed
one at this concrete input. -/
theorem c1_counterexample :
    buildClasspath "root" [] [] "1.19" (some "1.19-fabric-0.1") ≠
      encontrarArchivosJAR [] "1.19" (pjoin ["root", librariesDir]) [] ++
        pjoin ["root", versionsDir, "1.19-fabric-0.1", "1.19-fabric-0.1.jar"] := by
  have h0 : encontrarArchivosJAR [] "1.19" (pjoin ["root", librariesDir]) [] = "" := by
    simp [encontrarArchivosJAR]
  have h1 : strIncludes "1.19-fabric-0.1" "fabric" = true := by decide
  simp [buildClasspath, h0, h1]
  decide

/-- C1 (amended): the classpath is the recursive jar scan with exactly one
game jar appended: with no overlay, or with an overlay whose id contains
"fabric", the base client jar versions/(base)/(base).jar; with any other
overlay, the overlay jar versions/(overlay)/(overlay).jar. -/
theorem c1_game_jar_selection (rootPath version : String) (tree : List FsTree)
    (reqLibs : List String) :
    (buildClasspath rootPath tree reqLibs version none =
       encontrarArchivosJAR reqLibs version (pjoin [rootPath, librariesDir]) tree ++
         pjoin [rootPath, versionsDir, version, version ++ ".jar"]) ∧
    (∀ c, strIncludes c "fabric" = true →
       buildClasspath rootPath tree reqLibs version (some c) =
         encontrarArchivosJAR reqLibs version (pjoin [rootPath, librariesDir]) tree ++
           pjoin [rootPath, versionsDir, version, version ++ ".jar"]) ∧
    (∀ c, strIncludes c "fabric" = false →
       buildClasspath rootPath tree reqLibs version (some c) =
         encontrarArchivosJAR reqLibs version (pjoin [rootPath, librariesDir]) tree ++
           pjoin [rootPath, versionsDir, c, c ++ ".jar"]) := by
  refine ⟨rfl, fun c hc => ?_, fun c hc => ?_⟩ <;> simp [buildClasspath, hc]

/-- C1 (witness): the amended selection evaluated at the fabric overlay and
at a non-fabric overlay. -/
theorem c1_witness :
    (buildClasspath "root" [] [] "1.19" (some "1.19-fabric-0.1") =
       encontrarArchivosJAR [] "1.19" (pjoin ["root", librariesDir]) [] ++
         pjoin ["root", versionsDir, "1.19", "1.19.jar"]) ∧
    (buildClasspath "root" [] [] "1.19" (some "1.19-OptiFine_HD_U") =
       encontrarArchivosJAR [] "1.19" (pjoin ["root", librariesDir]) [] ++
         pjoin ["root", versionsDir, "1.19-OptiFine_HD_U", "1.19-OptiFine_HD_U.jar"]) :=
  ⟨(c1_game_jar_selection "root" "1.19" [] []).2.1 "1.19-fabric-0.1" (by decide),
   (c1_game_jar_selection "root" "1.19" [] []).2.2 "1.19-OptiFine_HD_U" (by decide)⟩

/-- C3: version resolution evaluated on a one-entry release manifest: the
present id resolves to its metadata url; an absent id raises a TypeError
from the .url access on undefined, so the intended version-does-not-exist
error (the dead guard on the next source line) is never the failure that
surfaces. -/
theorem c3_version_lookup :
    (findReleaseUrl ⟨[⟨"1.12.2", "release", "https://meta.example/1.12.2.json"⟩]⟩ "1.12.2" =
       Except.ok "https://meta.example/1.12.2.json") ∧
    (findReleaseUrl ⟨[⟨"1.12.2", "release", "https://meta.example/1.12.2.json"⟩]⟩ "1.99" =
       Except.error (JsError.typeError "Cannot read properties of undefined (reading url)")) ∧
    (findReleaseUrl ⟨[⟨"23w31a", "snapshot", "https://meta.example/23w31a.json"⟩]⟩ "23w31a" =
       Except.error (JsError.typeError "Cannot read properties of undefined (reading url)")) := by
  refine ⟨?_, ?_, ?_⟩ <;> rfl

/-- C4: with an overlay present the merged main class is the overlay one,
and the required-library basename set keeps every base artifact basename
and adds, for every overlay library, the name reconstructed as
name-version.jar from the last two colon-delimited coordinate fields. -/
theorem c4_overlay_merge (file customFile : VersionFile) :
    mergedMainClass file (some customFile) = customFile.mainClass ∧
    (∀ element artifact, element ∈ file.libraries →
       element.downloads.artifact = some artifact →
       basename artifact.path ∈ mergedReqLibs file customFile) ∧
    (∀ element, element ∈ customFile.libraries →
       String.intercalate "-" (lastTwo (splitChar ':' element.name)) ++ ".jar" ∈
         mergedReqLibs file customFile) := by
  refine ⟨rfl, ?_, ?_⟩
  · intro element artifact hmem hart
    unfold mergedReqLibs
    apply List.mem_append_left
    unfold baseReqLibs
    exact List.mem_filterMap.mpr ⟨element, hmem, by rw [hart]; rfl⟩
  · intro element hmem
    unfold mergedReqLibs
    apply List.mem_append_right
    exact List.mem_map.mpr ⟨element, hmem, rfl⟩

/-- C4 (witness): the merge evaluated at the concrete base and overlay
documents: overlay main class supersedes, and both library names land in
the merged required set. -/
theorem c4_witness :
    mergedMainClass sampleBaseFile (some sampleOverlayFile) =
      "net.fabricmc.loader.impl.launch.knot.KnotClient" ∧
    basename "com/google/guava/guava-17.0.jar" ∈ mergedReqLibs sampleBaseFile sampleOverlayFile ∧
    String.intercalate "-" (lastTwo (splitChar ':' "net.fabricmc:fabric-loader:0.15.0")) ++ ".jar" ∈
      mergedReqLibs sampleBaseFile sampleOverlayFile :=
  ⟨(c4_overlay_merge sampleBaseFile sampleOverlayFile).1,
   (c4_overlay_merge sampleBaseFile sampleOverlayFile).2.1 guavaLib
     { path := "com/google/guava/guava-17.0.jar",
       url := "https://libraries.example/guava-17.0.jar" }
     (by simp [sampleBaseFile]) rfl,
   (c4_overlay_merge sampleBaseFile sampleOverlayFile).2.2 fabricLoaderLib
     (by simp [sampleOverlayFile])⟩

/-- C5: every object entry of the asset index is downloaded into
assets/objects/(first two characters of its hash) under its full hash, and
the per-object step is a pure function of the hash: the logical key does
not influence it. -/
theorem c5_asset_storage_path (root version : String) (st : DownFs) (file : VersionFile)
    (idx : AssetIndexFile) (key : String) (obj : AssetObjectInfo)
    (h : (key, obj) ∈ idx.objects) :
    FsOp.download (resourceUrl ++ "/" ++ strTake 2 obj.hash ++ "/" ++ obj.hash)
        (pjoin [root, assetsDir, "objects", strTake 2 obj.hash]) obj.hash ∈
      downloadAssetsTrace root version st file idx ∧
    (∀ key2 : String, assetObjectOps root st (key, obj) = assetObjectOps root st (key2, obj)) := by
  constructor
  · have hop : FsOp.download (resourceUrl ++ "/" ++ strTake 2 obj.hash ++ "/" ++ obj.hash)
        (pjoin [root, assetsDir, "objects", strTake 2 obj.hash]) obj.hash ∈
        assetObjectOps root st (key, obj) := by
      unfold assetObjectOps
      exact List.mem_append_right _ (List.mem_singleton.mpr rfl)
    unfold downloadAssetsTrace
    refine List.mem_append_right _ ?_
    exact List.mem_flatMap.mpr ⟨(key, obj), h, hop⟩
  · intro key2
    rfl

/-- C5 (witness): the storage path evaluated at a concrete index entry. -/
theorem c5_witness :
    FsOp.download (resourceUrl ++ "/" ++ strTake 2 "abcd1234ef" ++ "/" ++ "abcd1234ef")
        (pjoin ["root", assetsDir, "objects", strTake 2 "abcd1234ef"]) "abcd1234ef" ∈
      downloadAssetsTrace "root" "1.12.2" ⟨[]⟩ sampleBaseFile
        ⟨[("minecraft/sounds/ambient/cave/cave1.ogg", ⟨"abcd1234ef"⟩)]⟩ :=
  (c5_asset_storage_path "root" "1.12.2" ⟨[]⟩ sampleBaseFile
    ⟨[("minecraft/sounds/ambient/cave/cave1.ogg", ⟨"abcd1234ef"⟩)]⟩
    "minecraft/sounds/ambient/cave/cave1.ogg" ⟨"abcd1234ef"⟩ (by simp)).1

/-- C6: in the recursive jar search, a required .jar whose name contains
"3.2.1" is admitted for every version in the legacy set
{"1.14", "1.14.1", "1.14.2", "1.14.3"} (here: when it is the scanned file,
with any siblings), while for every version outside the set each path the
search emits belongs to a file whose name does not contain "3.2.1". -/
theorem c6_legacy_321_quirk (ver : String) (files : List String) :
    (∀ directorio archivo rest, ver ∈ legacyVersions →
       strIncludes archivo "3.2.1" = true → extname archivo = ".jar" → archivo ∈ files →
       pjoin [directorio, archivo] ∈
         encontrarJARLista files ver directorio (FsTree.file archivo :: rest)) ∧
    (∀ directorio ts p, ver ∉ legacyVersions →
       p ∈ encontrarJARLista files ver directorio ts →
       ∃ d a, p = pjoin [d, a] ∧ strIncludes a "3.2.1" = false) := by
  constructor
  · intro d archivo rest hver _ hext hmem
    have hcontains : legacyVersions.contains ver = true := by
      simpa using hver
    have hcond : jarCondition ver archivo files = true := by
      unfold jarCondition
      rw [if_pos hcontains]
      simp [hext, hmem]
    simp [encontrarJARLista, hcond]
  · intro d ts p hver hp
    obtain ⟨dd, a, hpa, hcond⟩ := encontrarJARLista_mem files ver d ts p hp
    refine ⟨dd, a, hpa, ?_⟩
    have hcontains : legacyVersions.contains ver = false := by
      simpa using hver
    rw [jarCondition, hcontains] at hcond
    simp at hcond
    tauto

/-- C6 (witness): for legacy version "1.14.2" the required jar
asm-all-3.2.1.jar is admitted; for version "1.20" the search over a tree
holding both that jar and guava-17.0.jar (both required) only ever emits
paths of files without "3.2.1" in the name. -/
theorem c6_witness :
    (pjoin ["root/libraries", "asm-all-3.2.1.jar"] ∈
       encontrarJARLista ["asm-all-3.2.1.jar"] "1.14.2" "root/libraries"
         [FsTree.file "asm-all-3.2.1.jar"]) ∧
    (∃ d a, pjoin ["root/libraries", "guava-17.0.jar"] = pjoin [d, a] ∧
       strIncludes a "3.2.1" = false) :=
  ⟨(c6_legacy_321_quirk "1.14.2" ["asm-all-3.2.1.jar"]).1 "root/libraries"
     "asm-all-3.2.1.jar" [] (by decide) (by decide) (by decide) (by decide),
   (c6_legacy_321_quirk "1.20" ["asm-all-3.2.1.jar", "guava-17.0.jar"]).2 "root/libraries"
     [FsTree.file "asm-all-3.2.1.jar", FsTree.file "guava-17.0.jar"]
     (pjoin ["root/libraries", "guava-17.0.jar"]) (by decide)
     (by simp [encontrarJARLista, jarCondition]; decide)⟩

/-- C7 (counterexample): for a classifier map exposing both
natives-windows and natives-windows-64, the code selects natives-windows
(the platform-only key), not the exact platform+arch key the claim says is
tried first. -/
theorem c7_counterexample :
    selectNatives (some
      { nativesWindows := some { path := "lwjgl-natives-windows.jar",
                                 url := "https://libraries.example/w.jar" },
        nativesWindows64 := some { path := "lwjgl-natives-windows-64.jar",
                                   url := "https://libraries.example/w64.jar" } }) =
      some { path := "lwjgl-natives-windows.jar",
             url := "https://libraries.example/w.jar" } ∧
    ({ path := "lwjgl-natives-windows.jar", url := "https://libraries.example/w.jar" }
        : NativeInfo) ≠
      { path := "lwjgl-natives-windows-64.jar", url := "https://libraries.example/w64.jar" } :=
  ⟨rfl, by decide⟩

/-- C7 (amended): natives selection tries the platform-only classifier
natives-windows first and falls back to natives-windows-64; the selected
bundle is downloaded into the natives root as scratch, extracted into
natives/(version), and the scratch archive deleted — except for version
"1.8" with a nightly url, where the scratch archive is deleted without
extraction. -/
theorem c7_natives_pipeline (root version : String) (element : LibraryInfo)
    (natives : NativeInfo)
    (hsel : selectNatives element.downloads.classifiers = some natives) :
    (¬(version = "1.8" ∧ strIncludes natives.url "nightly" = true) →
       nativeEntryOps root version element =
         [FsOp.download natives.url (pjoin [root, nativesDir]) (basename natives.path),
          FsOp.extract (pjoin [root, nativesDir, basename natives.path])
            (pjoin [root, nativesDir, version]),
          FsOp.unlink (pjoin [root, nativesDir, basename natives.path])]) ∧
    (version = "1.8" → strIncludes natives.url "nightly" = true →
       nativeEntryOps root version element =
         [FsOp.download natives.url (pjoin [root, nativesDir]) (basename natives.path),
          FsOp.unlink (pjoin [root, nativesDir, basename natives.path])]) ∧
    (∀ c w, c.nativesWindows = some w → selectNatives (some c) = some w) ∧
    (∀ c, c.nativesWindows = none → selectNatives (some c) = c.nativesWindows64) := by
  refine ⟨?_, ?_, ?_, ?_⟩
  · intro hq
    have hb : (version == "1.8" && strIncludes natives.url "nightly") = false := by
      by_cases h18 : version = "1.8"
      · have hni : strIncludes natives.url "nightly" = false := by
          cases hcase : strIncludes natives.url "nightly"
          · rfl
          · exact absurd ⟨h18, hcase⟩ hq
        simp [hni]
      · simp [h18]
    unfold nativeEntryOps
    rw [hsel]
    simp [hb]
  · intro h18 hni
    subst h18
    unfold nativeEntryOps
    rw [hsel]
    simp [hni]
  · intro c w hw
    simp [selectNatives, hw]
  · intro c hc
    simp [selectNatives, hc]

/-- C7 (witness): the per-entry natives pipeline evaluated at a concrete
library entry exposing only the natives-windows classifier, on the normal
branch (version "1.12.2": download, extract, delete scratch) and on the
quirk branch (version "1.8" with a nightly url: download, delete scratch,
no extraction). -/
theorem c7_witness :
    (nativeEntryOps "root" "1.12.2"
      { name := "org.lwjgl:lwjgl:2.9.4",
        downloads :=
          { artifact := none,
            classifiers := some
              { nativesWindows := some { path := "org/lwjgl/lwjgl-natives-windows.jar",
                                         url := "https://libraries.example/w.jar" },
                nativesWindows64 := none } } } =
      [FsOp.download "https://libraries.example/w.jar" (pjoin ["root", nativesDir])
         (basename "org/lwjgl/lwjgl-natives-windows.jar"),
       FsOp.extract (pjoin ["root", nativesDir, basename "org/lwjgl/lwjgl-natives-windows.jar"])
         (pjoin ["root", nativesDir, "1.12.2"]),
       FsOp.unlink (pjoin ["root", nativesDir,
         basename "org/lwjgl/lwjgl-natives-windows.jar"])]) ∧
    (nativeEntryOps "root" "1.8"
      { name := "org.lwjgl:lwjgl-platform:2.9.1-nightly-20130708-debug3",
        downloads :=
          { artifact := none,
            classifiers := some
              { nativesWindows := some
                  { path := "org/lwjgl/lwjgl-platform-2.9.1-nightly-natives-windows.jar",
                    url := "https://libraries.example/nightly/w.jar" },
                nativesWindows64 := none } } } =
      [FsOp.download "https://libraries.example/nightly/w.jar" (pjoin ["root", nativesDir])
         (basename "org/lwjgl/lwjgl-platform-2.9.1-nightly-natives-windows.jar"),
       FsOp.unlink (pjoin ["root", nativesDir,
         basename "org/lwjgl/lwjgl-platform-2.9.1-nightly-natives-windows.jar"])]) :=
  ⟨(c7_natives_pipeline "root" "1.12.2"
      { name := "org.lwjgl:lwjgl:2.9.4",
        downloads :=
          { artifact := none,
            classifiers := some
              { nativesWindows := some { path := "org/lwjgl/lwjgl-natives-windows.jar",
                                         url := "https://libraries.example/w.jar" },
                nativesWindows64 := none } } }
      { path := "org/lwjgl/lwjgl-natives-windows.jar", url := "https://libraries.example/w.jar" }
      rfl).1 (by decide),
   (c7_natives_pipeline "root" "1.8"
      { name := "org.lwjgl:lwjgl-platform:2.9.1-nightly-20130708-debug3",
        downloads :=
          { artifact := none,
            classifiers := some
              { nativesWindows := some
                  { path := "org/lwjgl/lwjgl-platform-2.9.1-nightly-natives-windows.jar",
                    url := "https://libraries.example/nightly/w.jar" },
                nativesWindows64 := none } } }
      { path := "org/lwjgl/lwjgl-platform-2.9.1-nightly-natives-windows.jar",
        url := "https://libraries.example/nightly/w.jar" }
      rfl).2.1 rfl (by decide)⟩

/-- C10: the identity lookup is total: with a parsed usercache holding a
matching entry it returns that entry's uuid (the first match), and in every
other case — missing or malformed usercache (cache = none) or no matching
entry — it returns the freshly generated uuid. -/
theorem c10_auth_total (cache : Option (List UserEntry)) (us freshUuid : String) :
    (∀ fil entry, cache = some fil →
       fil.find? (fun x => x.name == us) = some entry →
       auth cache us freshUuid = entry.uuid) ∧
    ((cache = none ∨ ∃ fil, cache = some fil ∧ fil.find? (fun x => x.name == us) = none) →
       auth cache us freshUuid = freshUuid) := by
  constructor
  · rintro fil entry rfl hfind
    simp [auth, hfind]
  · rintro (rfl | ⟨fil, rfl, hfind⟩)
    · rfl
    · simp [auth, hfind]

/-- C10 (witness): the lookup evaluated at a two-entry cache with a match,
and at a missing cache. -/
theorem c10_witness :
    auth (some [⟨"Alex", "uuid-alex"⟩, ⟨"Steve", "uuid-steve"⟩]) "Steve" "uuid-fresh" =
      "uuid-steve" ∧
    auth none "Steve" "uuid-fresh" = "uuid-fresh" :=
  ⟨(c10_auth_total (some [⟨"Alex", "uuid-alex"⟩, ⟨"Steve", "uuid-steve"⟩]) "Steve"
      "uuid-fresh").1 [⟨"Alex", "uuid-alex"⟩, ⟨"Steve", "uuid-steve"⟩]
      ⟨"Steve", "uuid-steve"⟩ rfl (by decide),
   (c10_auth_total none "Steve" "uuid-fresh").2 (Or.inl rfl)⟩

theorem downloadsOf_append (a b : List FsOp) :
    downloadsOf (a ++ b) = downloadsOf a ++ downloadsOf b := by
  simp [downloadsOf, List.filter_append]

theorem downloadsOf_flatMap {α : Type} (l : List α) (f g : α → List FsOp)
    (h : ∀ x ∈ l, downloadsOf (f x) = downloadsOf (g x)) :
    downloadsOf (l.flatMap f) = downloadsOf (l.flatMap g) := by
  induction l with
  | nil => rfl
  | cons a rest ih =>
    simp only [List.flatMap_cons, downloadsOf_append]
    rw [h a (List.mem_cons_self a rest), ih (fun x hx => h x (List.mem_cons_of_mem a hx))]

theorem downloadsOf_client (root version : String) (st : DownFs) (file : VersionFile) :
    downloadsOf (downloadClientTrace root version st file) =
      [FsOp.download file.downloads.client.url (pjoin [root, versionsDir, version])
        (version ++ ".jar")] := by
  unfold downloadClientTrace
  by_cases hc : st.dirs.contains (pjoin [root, versionsDir, version]) = true <;>
    simp [hc, downloadsOf, isDownload]

theorem downloadsOf_assetObject (root : String) (st : DownFs)
    (x : String × AssetObjectInfo) :
    downloadsOf (assetObjectOps root st x) =
      [FsOp.download (resourceUrl ++ "/" ++ strTake 2 x.2.hash ++ "/" ++ x.2.hash)
        (pjoin [root, assetsDir, "objects", strTake 2 x.2.hash]) x.2.hash] := by
  unfold assetObjectOps
  by_cases hc : st.dirs.contains (pjoin [root, assetsDir, "objects", strTake 2 x.2.hash]) = true <;>
    simp [hc, downloadsOf, isDownload]


theorem filter_isDownload_if (c : Prop) [Decidable c] (p : String) :
    List.filter isDownload (if c then [] else [FsOp.mkdir p]) = [] := by
  by_cases h : c <;> simp [h, isDownload]

theorem downloadsOf_assets (root version : String) (st : DownFs) (file : VersionFile)
    (idx : AssetIndexFile) :
    downloadsOf (downloadAssetsTrace root version st file idx) =
      [FsOp.download file.assetIndex.url (pjoin [root, assetsDir, "indexes"])
         (version ++ ".json"),
       FsOp.download file.assetIndex.url (pjoin [root, cacheDir, "json"]) (version ++ ".json")] ++
      idx.objects.map (fun x =>
        FsOp.download (resourceUrl ++ "/" ++ strTake 2 x.2.hash ++ "/" ++ x.2.hash)
          (pjoin [root, assetsDir, "objects", strTake 2 x.2.hash]) x.2.hash) := by
  have hobjs : List.filter isDownload (idx.objects.flatMap (assetObjectOps root st)) =
      idx.objects.map (fun x =>
        FsOp.download (resourceUrl ++ "/" ++ strTake 2 x.2.hash ++ "/" ++ x.2.hash)
          (pjoin [root, assetsDir, "objects", strTake 2 x.2.hash]) x.2.hash) := by
    induction idx.objects with
    | nil => rfl
    | cons a rest ih =>
      rw [List.flatMap_cons, List.filter_append, List.map_cons]
      have ha := downloadsOf_assetObject root st a
      unfold downloadsOf at ha
      rw [ha, ih]
      rfl
  unfold downloadAssetsTrace downloadsOf
  rw [List.filter_append, List.filter_append, List.filter_append,
    filter_isDownload_if, filter_isDownload_if, hobjs]
  simp [isDownload]

theorem downloadsOf_libraryArtifact (root : String) (st : DownFs) (element : LibraryInfo) :
    downloadsOf (libraryArtifactOps root st element) =
      (match element.downloads.artifact with
       | none => []
       | some artifact =>
         [FsOp.download artifact.url
           (pjoin [root, librariesDir,
             String.intercalate "/" (splitChar '/' artifact.path).dropLast])
           (basename artifact.path)]) := by
  unfold libraryArtifactOps downloadsOf
  cases element.downloads.artifact with
  | none => rfl
  | some artifact =>
    rw [List.filter_append, filter_isDownload_if]
    simp [isDownload]

theorem downloadsOf_libraries (root : String) (st st2 : DownFs) (file : VersionFile) :
    downloadsOf (downloadLibrariesTrace root st file) =
      downloadsOf (downloadLibrariesTrace root st2 file) := by
  have h := downloadsOf_flatMap file.libraries (libraryArtifactOps root st)
    (libraryArtifactOps root st2) (fun x _ => by
      rw [downloadsOf_libraryArtifact, downloadsOf_libraryArtifact])
  unfold downloadsOf at h
  unfold downloadLibrariesTrace downloadsOf
  rw [List.filter_append, List.filter_append, filter_isDownload_if, filter_isDownload_if,
    List.nil_append, List.nil_append]
  exact h

theorem downloadsOf_natives (root version : String) (st st2 : DownFs) (file : VersionFile) :
    downloadsOf (downloadNativesTrace root version st file) =
      downloadsOf (downloadNativesTrace root version st2 file) := by
  unfold downloadNativesTrace downloadsOf
  rw [List.filter_append, List.filter_append, filter_isDownload_if, filter_isDownload_if]

/-- C2 (counterexample): a run over an already-complete version directory
(the checked directory exists) still performs a network download of the
client jar: the download is not short-circuited by any file-existence
check. -/
theorem c2_counterexample :
    downloadsOf (downloadClientTrace "root" "1.12.2"
        ⟨[pjoin ["root", versionsDir, "1.12.2"]]⟩ sampleBaseFile) =
      [FsOp.download "https://launcher.example/client.jar"
        (pjoin ["root", versionsDir, "1.12.2"]) "1.12.2.jar"] ∧
    downloadsOf (downloadClientTrace "root" "1.12.2"
        ⟨[pjoin ["root", versionsDir, "1.12.2"]]⟩ sampleBaseFile) ≠ [] := by
  constructor
  · rw [downloadsOf_client]
    rfl
  · rw [downloadsOf_client]
    simp

/-- C2 (amended): re-running the download pipeline performs every per-file
download again — the downloads of each stage are identical for any two
start states, so a complete directory is downloaded exactly as an empty
one, and no hash verification exists; the only short-circuiting the
existence checks perform is of directory creation: every mkdir in the
client or assets stage targets a directory absent from the start state. -/
theorem c2_redownload (root version : String) (st st2 : DownFs) (file : VersionFile)
    (idx : AssetIndexFile) (manifest : Manifest) :
    (downloadsOf (downloadClientTrace root version st file) =
       downloadsOf (downloadClientTrace root version st2 file)) ∧
    (downloadsOf (downloadAssetsTrace root version st file idx) =
       downloadsOf (downloadAssetsTrace root version st2 file idx)) ∧
    (downloadsOf (downloadLibrariesTrace root st file) =
       downloadsOf (downloadLibrariesTrace root st2 file)) ∧
    (downloadsOf (downloadNativesTrace root version st file) =
       downloadsOf (downloadNativesTrace root version st2 file)) ∧
    (downloadsOf (downloadClientTrace root version st file) ≠ []) ∧
    (∀ ops, downloadVersionTrace root version st manifest = Except.ok ops →
       downloadsOf ops ≠ []) ∧
    (∀ p, FsOp.mkdir p ∈ downloadClientTrace root version st file →
       st.dirs.contains p = false) ∧
    (∀ p, FsOp.mkdir p ∈ downloadAssetsTrace root version st file idx →
       st.dirs.contains p = false) := by
  refine ⟨?_, ?_, downloadsOf_libraries root st st2 file,
    downloadsOf_natives root version st st2 file, ?_, ?_, ?_, ?_⟩
  · rw [downloadsOf_client, downloadsOf_client]
  · rw [downloadsOf_assets, downloadsOf_assets]
  · rw [downloadsOf_client]
    simp
  · intro ops hops
    unfold downloadVersionTrace at hops
    by_cases hc : st.dirs.contains (pjoin [root, cacheDir]) = true
    · rw [if_pos hc] at hops
      cases hfind : findReleaseUrl manifest version with
      | error e =>
        rw [hfind] at hops
        exact Except.noConfusion hops
      | ok u =>
        rw [hfind] at hops
        injection hops with hops
        subst hops
        unfold downloadsOf
        simp [List.filter_append, filter_isDownload_if, isDownload]
    · rw [if_neg hc] at hops
      injection hops with hops
      subst hops
      unfold downloadsOf
      simp [List.filter_append, filter_isDownload_if, isDownload]
  · intro p hp
    unfold downloadClientTrace at hp
    rcases List.mem_append.mp hp with hp | hp
    · rcases List.mem_append.mp hp with hp | hp
      · simp at hp
      · by_cases hb : st.dirs.contains (pjoin [root, versionsDir, version]) = true
        · rw [if_pos hb] at hp
          simp at hp
        · rw [if_neg hb] at hp
          rw [List.mem_singleton] at hp
          injection hp with hq
          subst hq
          simpa using hb
    · simp at hp
  · intro p hp
    unfold downloadAssetsTrace at hp
    rcases List.mem_append.mp hp with hp | hp
    · rcases List.mem_append.mp hp with hp | hp
      · rcases List.mem_append.mp hp with hp | hp
        · by_cases h1 : st.dirs.contains (pjoin [root, assetsDir, "indexes"]) = true
          · rw [if_pos h1] at hp
            simp at hp
          · rw [if_neg h1] at hp
            rw [List.mem_singleton] at hp
            injection hp with hq
            subst hq
            simpa using h1
        · simp at hp
      · by_cases h2 : st.dirs.contains (pjoin [root, assetsDir, "objects"]) = true
        · rw [if_pos h2] at hp
          simp at hp
        · rw [if_neg h2] at hp
          rw [List.mem_singleton] at hp
          injection hp with hq
          subst hq
          simpa using h2
    · obtain ⟨x, hx, hopx⟩ := List.mem_flatMap.mp hp
      simp only [assetObjectOps] at hopx
      rcases List.mem_append.mp hopx with hopx | hopx
      · by_cases h3 : st.dirs.contains
            (pjoin [root, assetsDir, "objects", strTake 2 x.2.hash]) = true
        · rw [if_pos h3] at hopx
          simp at hopx
        · rw [if_neg h3] at hopx
          rw [List.mem_singleton] at hopx
          injection hopx with hq
          subst hq
          simpa using h3
      · simp at hopx

/-- C2 (witness): the mkdir clause evaluated at an empty start state: the
client stage mkdir targets the absent version directory. -/
theorem c2_witness :
    (⟨[]⟩ : DownFs).dirs.contains (pjoin ["root", versionsDir, "1.12.2"]) = false :=
  (c2_redownload "root" "1.12.2" ⟨[]⟩ ⟨[]⟩ sampleBaseFile ⟨[]⟩ ⟨[]⟩).2.2.2.2.2.2.1
    (pjoin ["root", versionsDir, "1.12.2"]) (by decide)

/-- C8: in the final argument vector, a token that is an exact key of the
fields mapping is replaced by its resolved value, a token that matches no
key passes through byte-identical, and substitution is total: the output
always has the length of the input vector, so unknown placeholder tokens
never fail the build. -/
theorem c8_placeholder_substitution
    (uuid username version rootPath minM maxM libs mainClass : String)
    (gameArgs : List String) (i : Nat) (t : String)
    (ht : (buildArgs rootPath version minM maxM libs mainClass gameArgs)[i]? = some t) :
    ((substPlaceholders (fieldsMap uuid username version rootPath)
        (buildArgs rootPath version minM maxM libs mainClass gameArgs)).length =
      (buildArgs rootPath version minM maxM libs mainClass gameArgs).length) ∧
    (∀ v, (fieldsMap uuid username version rootPath).lookup t = some v →
       (substPlaceholders (fieldsMap uuid username version rootPath)
          (buildArgs rootPath version minM maxM libs mainClass gameArgs))[i]? = some v) ∧
    ((fieldsMap uuid username version rootPath).lookup t = none →
       (substPlaceholders (fieldsMap uuid username version rootPath)
          (buildArgs rootPath version minM maxM libs mainClass gameArgs))[i]? = some t) := by
  refine ⟨by simp [substPlaceholders], ?_, ?_⟩
  · intro v hv
    simp [substPlaceholders, List.getElem?_map, ht, hv]
  · intro hv
    simp [substPlaceholders, List.getElem?_map, ht, hv]

/-- C8 (witness): the substitution evaluated at a template whose game
arguments hold the player-name placeholder and an unknown future
placeholder: the former becomes "Steve", the latter passes through. -/
theorem c8_witness :
    ((substPlaceholders (fieldsMap "uuid-1" "Steve" "1.12.2" "root")
        (buildArgs "root" "1.12.2" "1G" "2G" "cp" "Main"
          ["--username", "$\x7bauth_player_name\x7d", "$\x7bfuture_token\x7d"]))[8]? =
      some "Steve") ∧
    ((substPlaceholders (fieldsMap "uuid-1" "Steve" "1.12.2" "root")
        (buildArgs "root" "1.12.2" "1G" "2G" "cp" "Main"
          ["--username", "$\x7bauth_player_name\x7d", "$\x7bfuture_token\x7d"]))[9]? =
      some "$\x7bfuture_token\x7d") :=
  ⟨(c8_placeholder_substitution "uuid-1" "Steve" "1.12.2" "root" "1G" "2G" "cp" "Main"
      ["--username", "$\x7bauth_player_name\x7d", "$\x7bfuture_token\x7d"] 8
      "$\x7bauth_player_name\x7d" (by rfl)).2.1 "Steve" (by rfl),
   (c8_placeholder_substitution "uuid-1" "Steve" "1.12.2" "root" "1G" "2G" "cp" "Main"
      ["--username", "$\x7bauth_player_name\x7d", "$\x7bfuture_token\x7d"] 9
      "$\x7bfuture_token\x7d" (by rfl)).2.2 (by rfl)⟩

theorem scanOps_reads :
    ∀ (directorio : String) (ts : List FsTree) (op : FsOp),
    op ∈ scanOps directorio ts → ∃ p, op = FsOp.readF p := by
  intro directorio ts
  induction directorio, ts using scanOps.induct with
  | case1 d => intro op hop; simp [scanOps] at hop
  | case2 d archivo rest ih =>
    intro op hop
    simp only [scanOps, List.mem_cons] at hop
    rcases hop with rfl | hop
    · exact ⟨_, rfl⟩
    · exact ih op hop
  | case3 d nombre hijos rest ih1 ih2 =>
    intro op hop
    simp only [scanOps, List.mem_cons, List.mem_append] at hop
    rcases hop with rfl | hop | hop
    · exact ⟨_, rfl⟩
    · exact ih1 op hop
    · exact ih2 op hop

/-- C9 (counterexample): on a root with no launcher_profiles.json, building
the launch plan with no overlay writes launcher_profiles.json — an on-disk
mutation that is not the conditional options.txt deletion, so the deletion
is not the only mutation. -/
theorem c9_counterexample :
    FsOp.writeF (pjoin ["root", "launcher_profiles.json"]) ∈
      launchTrace "root" "1.19" none ⟨false, false⟩ [] ∧
    (∀ p, FsOp.writeF (pjoin ["root", "launcher_profiles.json"]) ≠ FsOp.unlink p) ∧
    (∀ p, FsOp.writeF (pjoin ["root", "launcher_profiles.json"]) ≠ FsOp.readF p) := by
  refine ⟨?_, ?_, ?_⟩
  · simp [launchTrace, createProfileOps, scanOps]
  · intro p h
    exact FsOp.noConfusion h
  · intro p h
    exact FsOp.noConfusion h

/-- C9 (amended): every filesystem operation of the launch-plan build is a
read or an existence probe, except the write of launcher_profiles.json
(performed exactly when that file is absent) and the deletion of
options.txt (performed exactly when an overlay is selected and the file
exists); in particular no operation is a download. -/
theorem c9_launch_frame (rootPath version : String) (custom : Option String)
    (st : LaunchDisk) (tree : List FsTree) (op : FsOp)
    (h : op ∈ launchTrace rootPath version custom st tree) :
    (∃ p, op = FsOp.readF p) ∨ (∃ p, op = FsOp.existsCheck p) ∨
    (op = FsOp.writeF (pjoin [rootPath, "launcher_profiles.json"]) ∧
       st.profilesExists = false) ∨
    (op = FsOp.unlink (pjoin [rootPath, "options.txt"]) ∧ custom ≠ none ∧
       st.optionsExists = true) := by
  unfold launchTrace at h
  rcases List.mem_append.mp h with h | h
  rcases List.mem_append.mp h with h | h
  rcases List.mem_append.mp h with h | h
  rcases List.mem_append.mp h with h | h
  · exact Or.inl ⟨_, List.mem_singleton.mp h⟩
  · unfold createProfileOps at h
    rcases List.mem_append.mp h with h | h
    · exact Or.inr (Or.inl ⟨_, List.mem_singleton.mp h⟩)
    · cases hpe : st.profilesExists
      · rw [hpe] at h
        rw [if_neg (by simp)] at h
        exact Or.inr (Or.inr (Or.inl ⟨List.mem_singleton.mp h, rfl⟩))
      · rw [hpe] at h
        rw [if_pos rfl] at h
        simp at h
  · exact Or.inl ⟨_, List.mem_singleton.mp h⟩
  · cases custom with
    | none => simp at h
    | some c =>
      rcases List.mem_append.mp h with h | h
      · rcases List.mem_cons.mp h with h | h
        · exact Or.inl ⟨_, h⟩
        · exact Or.inr (Or.inl ⟨_, List.mem_singleton.mp h⟩)
      · cases hoe : st.optionsExists
        · rw [hoe] at h
          rw [if_neg (by simp)] at h
          simp at h
        · rw [hoe] at h
          rw [if_pos rfl] at h
          refine Or.inr (Or.inr (Or.inr ⟨List.mem_singleton.mp h, by simp, rfl⟩))
  · rcases List.mem_cons.mp h with h | h
    · exact Or.inl ⟨_, h⟩
    · exact Or.inl (scanOps_reads _ tree op h)

/-- C9 (witness): the frame property evaluated at an overlay launch over a
state where options.txt exists: the deletion operation is classified as the
conditional options.txt deletion. -/
theorem c9_witness :
    (∃ p, FsOp.unlink (pjoin ["root", "options.txt"]) = FsOp.readF p) ∨
    (∃ p, FsOp.unlink (pjoin ["root", "options.txt"]) = FsOp.existsCheck p) ∨
    (FsOp.unlink (pjoin ["root", "options.txt"]) =
       FsOp.writeF (pjoin ["root", "launcher_profiles.json"]) ∧
       (⟨true, true⟩ : LaunchDisk).profilesExists = false) ∨
    (FsOp.unlink (pjoin ["root", "options.txt"]) =
       FsOp.unlink (pjoin ["root", "options.txt"]) ∧ some "1.19-fabric-0.1" ≠ none ∧
       (⟨true, true⟩ : LaunchDisk).optionsExists = true) :=
  c9_launch_frame "root" "1.19" (some "1.19-fabric-0.1") ⟨true, true⟩ []
    (FsOp.unlink (pjoin ["root", "options.txt"]))
    (by simp [launchTrace, createProfileOps, scanOps])
